import Mathlib

/-!
Shallow embedding of the MIPS-like CPU simulator (cpu.py, instruction_set.py,
memory_bus.py, cache.py) together with theorems settling the specification
claims about it.

Modelling conventions:
* Python unbounded integers are `Int`; nonnegative quantities that Python
  keeps nonnegative (addresses, byte values, counters) are `Nat`.
* Python `x & 0xFFFFFFFF` on an arbitrary int is `x % 4294967296` (`Int.emod`).
* The byte array `memory` is a function `Nat → Nat`; the dict-based cache and
  the I/O map are functions `Nat → Option Int` (a Python dict observed
  through lookup).
* A raised exception is a `fault` result carrying the state as mutated up to
  the raise point, which is what the `except` clause in `CPU.run` observes.
-/

/-- Constant MEMORY_SIZE from memory_bus.py (1MB). -/
def MEMORY_SIZE : Nat := 0x100000

/-- Constant IO_BASE from memory_bus.py. -/
def IO_BASE : Nat := 0xF0000000

/-- Kinds of exceptions the simulator raises. -/
inductive SimError where
  | invalidIOAddress
  | readOutOfBounds
  | writeOutOfBounds
  | overflowError
  | memoryBusError
  | loadOutOfBounds
  | storeOutOfBounds
  | jumpOutOfBounds
  | pcOutOfBounds
  | unknownOpcode
deriving DecidableEq

/-- State of `MemoryBus` (memory_bus.py), with the embedded dict-based
`Cache` inlined (its `cache` dict and `hits`/`misses` counters). -/
structure BusState where
  memory : Nat → Nat
  cache : Nat → Option Int
  hits : Nat
  misses : Nat
  reads : Nat
  writes : Nat
  io_devices : Nat → Option Int
  io_reads : Nat
  io_writes : Nat

/-- The initial `io_devices` dict: input register at IO_BASE seeded with 8,
output register at IO_BASE+4 seeded with 0. Nothing else is registered. -/
def initIODevices : Nat → Option Int := fun a =>
  if a = IO_BASE then some 8 else if a = IO_BASE + 4 then some 0 else none

/-- A freshly constructed `MemoryBus`. -/
def freshBus : BusState :=
  { memory := fun _ => 0
    cache := fun _ => none
    hits := 0
    misses := 0
    reads := 0
    writes := 0
    io_devices := initIODevices
    io_reads := 0
    io_writes := 0 }

/-- Result of a bus operation: `ok` value and new state, or `fault` carrying
the error and the state at the moment of the raise. -/
inductive BusRes (α : Type) where
  | ok : α → BusState → BusRes α
  | fault : SimError → BusState → BusRes α

/-- Embeds `int.from_bytes(memory[a:a+4], byteorder='big')`. -/
def memWord (m : Nat → Nat) (a : Nat) : Nat :=
  m a * 16777216 + m (a + 1) * 65536 + m (a + 2) * 256 + m (a + 3)

/-- Embeds `memory[a:a+4] = v.to_bytes(4, byteorder='big')` for `v < 2^32`. -/
def storeBytes (m : Nat → Nat) (a : Nat) (v : Nat) : Nat → Nat := fun x =>
  if x = a then v / 16777216
  else if x = a + 1 then v / 65536 % 256
  else if x = a + 2 then v / 256 % 256
  else if x = a + 3 then v % 256
  else m x

/-- Embeds `Cache.read_word` from memory_bus.py: a hit bumps `hits` and
returns the cached value, a miss bumps `misses` and returns `none`. -/
def cacheRead (b : BusState) (address : Nat) : Option Int × BusState :=
  match b.cache address with
  | some v => (some v, { b with hits := b.hits + 1 })
  | none => (none, { b with misses := b.misses + 1 })

/-- Embeds `Cache.write_word` from memory_bus.py: `self.cache[address] = value`. -/
def cacheWrite (b : BusState) (address : Nat) (value : Int) : BusState :=
  { b with cache := fun x => if x = address then some value else b.cache x }

/-- Embeds `Cache.clear` from memory_bus.py. -/
def cacheClear (b : BusState) : BusState :=
  { b with cache := fun _ => none, hits := 0, misses := 0 }

/-- Embeds `MemoryBus.read_word`. -/
def read_word (b : BusState) (address : Nat) : BusRes Int :=
  if IO_BASE ≤ address then
    match b.io_devices address with
    | some v => .ok v { b with io_reads := b.io_reads + 1 }
    | none => .fault .invalidIOAddress b
  else if MEMORY_SIZE < address + 4 then .fault .readOutOfBounds b
  else
    match cacheRead b address with
    | (some v, b1) => .ok v b1
    | (none, b1) =>
      let w : Int := memWord b1.memory address
      let b2 := cacheWrite b1 address w
      .ok w { b2 with reads := b2.reads + 1 }

/-- Embeds `MemoryBus.write_word`. The cache dict is updated before
`value.to_bytes` runs, so a value outside `[0, 2^32)` faults with the cache
already holding it and memory not yet written. -/
def write_word (b : BusState) (address : Nat) (value : Int) : BusRes Unit :=
  if IO_BASE ≤ address then
    match b.io_devices address with
    | some _ =>
        .ok () { b with
                  io_devices := fun x => if x = address then some value else b.io_devices x
                  io_writes := b.io_writes + 1 }
    | none => .fault .invalidIOAddress b
  else if MEMORY_SIZE < address + 4 then .fault .writeOutOfBounds b
  else
    let b1 := cacheWrite b address value
    if 0 ≤ value ∧ value < 4294967296 then
      .ok () { b1 with
                memory := storeBytes b1.memory address value.toNat
                writes := b1.writes + 1 }
    else .fault .overflowError b1

/-- Embeds the copy loop of `MemoryBus.load_program`. -/
def writeList (m : Nat → Nat) (base : Nat) : List Nat → Nat → Nat
  | [] => m
  | byte :: rest => writeList (fun x => if x = base then byte else m x) (base + 1) rest

/-- Embeds `MemoryBus.load_program`: bounds check, byte copy, then
`cache.clear()`. -/
def load_program (b : BusState) (program : List Nat) (base_address : Nat) : BusRes Unit :=
  if MEMORY_SIZE < base_address + program.length then .fault .memoryBusError b
  else .ok () (cacheClear { b with memory := writeList b.memory base_address program })

/-- Embeds `MemoryBus.load_memory` for integer-valued entries: each value is
converted with `to_bytes(4, 'big')` (OverflowError becomes MemoryBusError),
bounds-checked, and written; the cache is never touched. -/
def load_memory (b : BusState) : List (Nat × Int) → BusRes Unit
  | [] => .ok () b
  | (address, data) :: rest =>
    if 0 ≤ data ∧ data < 4294967296 then
      if MEMORY_SIZE < address + 4 then .fault .memoryBusError b
      else load_memory { b with memory := storeBytes b.memory address data.toNat } rest
    else .fault .memoryBusError b

/-- Embeds the `hit_rate` field of `Cache.get_stats` in memory_bus.py:
`(hits / total * 100) if total > 0 else 0` — a percentage. -/
def get_stats_hit_rate (hits misses : Nat) : ℚ :=
  if 0 < hits + misses then (hits : ℚ) / ((hits : ℚ) + (misses : ℚ)) * 100 else 0

/-- Embeds `Cache.get_hit_rate` from cache.py:
`(hits / total) if total > 0 else 0.0` — a fraction. -/
def get_hit_rate (hits misses : Nat) : ℚ :=
  if 0 < hits + misses then (hits : ℚ) / ((hits : ℚ) + (misses : ℚ)) else 0

/-- CPU register/PC/flag state from cpu.py. `pc` is an Int because
`_execute_j_type` transiently stores `target - 4`, which can be negative. -/
structure CPUState where
  pc : Int
  registers : List Int
  halted : Bool
  branch_taken : Bool
  branch_target : Option Int
deriving DecidableEq

/-- Embeds `CPU.reset`: PC 0, 32 zeroed registers except `$sp` (29). -/
def resetCPU : CPUState :=
  { pc := 0
    registers := (List.replicate 32 (0 : Int)).set 29 0x7FFFFFFF
    halted := false
    branch_taken := false
    branch_target := none }

/-- Embeds `self.registers[i]` (indices from decode are always < 32). -/
def regGet (c : CPUState) (i : Nat) : Int := c.registers.getD i 0

/-- Embeds `self.registers[i] = v`. -/
def regSet (c : CPUState) (i : Nat) (v : Int) : CPUState :=
  { c with registers := c.registers.set i v }

/-- The decoded-instruction dict of `CPU.decode_instruction`. -/
inductive Decoded where
  | rtype (rs rt rd shamt funct : Nat)
  | itype (opcode rs rt : Nat) (immediate : Int)
  | jtype (opcode : Nat) (target : Nat)
  | halt
deriving DecidableEq

/-- Embeds the decoder's sign extension: for a 16-bit field with bit 15 set,
`immediate |= -1 << 16` yields `immediate - 65536`. -/
def signExtend16 (imm : Nat) : Int :=
  if imm &&& 0x8000 ≠ 0 then (imm : Int) - 65536 else imm

/-- Embeds the re-sign-extension in `_execute_i_type` and the branch bodies:
on a Python int, `i & 0x8000` tests bit 15 (`i mod 2^16 ≥ 2^15`), and
`i |= -1 << 16` then yields `i mod 2^16 - 65536`. -/
def signExtendAgain (i : Int) : Int :=
  if 32768 ≤ i % 65536 then i % 65536 - 65536 else i

/-- Embeds `CPU.decode_instruction`. Every extracted field lies below bit 32,
so extraction from the low 32 bits coincides with Python's shift-and-mask on
an arbitrary int. -/
def decode_instruction (instruction : Int) : Except SimError Decoded :=
  let n := (instruction % 4294967296).toNat
  let opcode := (n >>> 26) &&& 0x3F
  if opcode = 0x00 then
    .ok (.rtype ((n >>> 21) &&& 0x1F) ((n >>> 16) &&& 0x1F) ((n >>> 11) &&& 0x1F)
          ((n >>> 6) &&& 0x1F) (n &&& 0x3F))
  else if opcode = 0x08 ∨ opcode = 0x23 ∨ opcode = 0x2B ∨ opcode = 0x05 ∨ opcode = 0x04 then
    .ok (.itype opcode ((n >>> 21) &&& 0x1F) ((n >>> 16) &&& 0x1F) (signExtend16 (n &&& 0xFFFF)))
  else if opcode = 0x02 ∨ opcode = 0x03 then
    .ok (.jtype opcode (n &&& 0x3FFFFFF))
  else if opcode = 0x3F then
    .ok .halt
  else .error .unknownOpcode

/-- A CPU together with its memory bus. -/
structure Machine where
  cpu : CPUState
  bus : BusState

/-- Result of an execute/step operation: `fault` carries the machine as
mutated up to the raise point. -/
inductive StepRes where
  | ok : Machine → StepRes
  | fault : SimError → Machine → StepRes

/-- Embeds `CPU._execute_r_type` with `InstructionSet.add`, `sub`, `slt`
inlined. Note: the results of ADD and SUB are stored without any masking,
and SLT compares the raw stored values. -/
def execute_r_type (c : CPUState) (rs rt rd funct : Nat) : CPUState :=
  let rsv := regGet c rs
  let rtv := regGet c rt
  let c1 :=
    if funct = 0x20 then regSet c rd (rsv + rtv)
    else if funct = 0x22 then regSet c rd (rsv - rtv)
    else if funct = 0x2A then regSet c rd (if rsv < rtv then 1 else 0)
    else c
  regSet c1 0 0

/-- Embeds `CPU._execute_i_type`. -/
def execute_i_type (m : Machine) (opcode rs rt : Nat) (immediate : Int) : StepRes :=
  let c := m.cpu
  let rsv := regGet c rs
  let imm :=
    if opcode = 0x08 ∨ opcode = 0x23 ∨ opcode = 0x2B then signExtendAgain immediate
    else immediate
  if opcode = 0x08 then
    .ok { m with cpu := regSet (regSet c rt ((rsv + imm) % 4294967296)) 0 0 }
  else if opcode = 0x23 then
    let addr := (rsv + imm) % 4294967296
    if (MEMORY_SIZE : Int) ≤ addr then .fault .loadOutOfBounds m
    else
      match read_word m.bus addr.toNat with
      | .ok v b1 => .ok { cpu := regSet (regSet c rt v) 0 0, bus := b1 }
      | .fault e b1 => .fault e { m with bus := b1 }
  else if opcode = 0x2B then
    let addr := (rsv + imm) % 4294967296
    if (MEMORY_SIZE : Int) ≤ addr then .fault .storeOutOfBounds m
    else
      let value := regGet c rt
      match write_word m.bus addr.toNat value with
      | .ok _ b1 => .ok { cpu := regSet c 0 0, bus := b1 }
      | .fault e b1 => .fault e { m with bus := b1 }
  else if opcode = 0x05 then
    let c1 :=
      if regGet c rs ≠ regGet c rt then
        let imm2 := signExtendAgain immediate
        { c with branch_target := some ((c.pc + 4 + imm2 * 4) % 4294967296)
                 branch_taken := true }
      else c
    .ok { m with cpu := regSet c1 0 0 }
  else if opcode = 0x04 then
    let c1 :=
      if regGet c rs = regGet c rt then
        let imm2 := signExtendAgain immediate
        { c with branch_target := some ((c.pc + 4 + imm2 * 4) % 4294967296)
                 branch_taken := true }
      else c
    .ok { m with cpu := regSet c1 0 0 }
  else .ok { m with cpu := regSet c 0 0 }

/-- Embeds `CPU._execute_j_type`. JAL stores `$ra` before the bounds check,
so a faulting JAL leaves `$ra` updated (the spec's no-rollback rule). -/
def execute_j_type (m : Machine) (opcode : Nat) (target_addr : Nat) : StepRes :=
  let c := m.cpu
  if opcode = 0x02 then
    let target : Nat := (c.pc.toNat &&& 0xF0000000) ||| (target_addr <<< 2)
    if MEMORY_SIZE ≤ target then .fault .jumpOutOfBounds m
    else .ok { m with cpu := { c with pc := (target : Int) - 4 } }
  else if opcode = 0x03 then
    let c1 := regSet c 31 (c.pc + 4)
    let target : Nat := (c.pc.toNat &&& 0xF0000000) ||| (target_addr <<< 2)
    if MEMORY_SIZE ≤ target then .fault .jumpOutOfBounds { m with cpu := c1 }
    else .ok { m with cpu := { c1 with pc := (target : Int) - 4 } }
  else .ok m

/-- Embeds `CPU.update_pc`: the out-of-bounds raise happens after the PC has
been assigned, so the fault carries the updated PC. -/
def update_pc (m : Machine) : StepRes :=
  let c := m.cpu
  let c1 :=
    if c.branch_taken then
      { c with pc := c.branch_target.getD 0, branch_taken := false, branch_target := none }
    else { c with pc := (c.pc + 4) % 4294967296 }
  if (MEMORY_SIZE : Int) ≤ c1.pc then .fault .pcOutOfBounds { m with cpu := c1 }
  else .ok { m with cpu := c1 }

/-- The execute dispatch of the `CPU.run` loop body (by instruction family),
without the subsequent PC update. -/
def execute_decoded (m : Machine) (d : Decoded) : StepRes :=
  match d with
  | .rtype rs rt rd _ funct => .ok { m with cpu := execute_r_type m.cpu rs rt rd funct }
  | .itype opcode rs rt immediate => execute_i_type m opcode rs rt immediate
  | .jtype opcode target => execute_j_type m opcode target
  | .halt => .ok { m with cpu := { m.cpu with halted := true } }

/-- One iteration of the `CPU.run` loop body inside the `try`: fetch, decode,
execute, then update the PC (HALT breaks out before the PC update). -/
def step_inner (m : Machine) : StepRes :=
  match read_word m.bus m.cpu.pc.toNat with
  | .fault e b1 => .fault e { m with bus := b1 }
  | .ok instruction b1 =>
    let m1 : Machine := { m with bus := b1 }
    match decode_instruction instruction with
    | .error e => .fault e m1
    | .ok .halt => .ok { m1 with cpu := { m1.cpu with halted := true } }
    | .ok d =>
      match execute_decoded m1 d with
      | .ok m2 => update_pc m2
      | .fault e m2 => .fault e m2

/-- One `CPU.run` loop iteration including the `except` clause, which
swallows the exception and sets `halted`. -/
def step (m : Machine) : Machine :=
  match step_inner m with
  | .ok m1 => m1
  | .fault _ m1 => { m1 with cpu := { m1.cpu with halted := true } }

/-- Embeds `CPU.run` with explicit fuel: `some` means the while loop exited,
`none` means the fuel ran out before it did. -/
def runCPU : Nat → Machine → Option Machine
  | 0, _ => none
  | fuel + 1, m => if m.cpu.halted then some m else runCPU fuel (step m)

/-- A freshly constructed machine: reset CPU on a fresh bus. -/
def freshMachine : Machine := { cpu := resetCPU, bus := freshBus }

/-! ### Helper lemmas -/

/-- Writing index 0 and then reading index 0 through `getD` yields the
written value or the default on an empty list — in both cases 0 here. -/
theorem getD_set_zero (l : List Int) : (l.set 0 0).getD 0 0 = 0 := by
  cases l <;> rfl

/-- `List.set` at one index does not change `getD` at another. -/
theorem getD_set_ne (l : List Int) (i j : Nat) (v d : Int) (h : i ≠ j) :
    (l.set i v).getD j d = l.getD j d := by
  induction l generalizing i j with
  | nil => rfl
  | cons a t ih =>
    cases i with
    | zero => cases j with
      | zero => exact absurd rfl h
      | succ j => rfl
    | succ i => cases j with
      | zero => rfl
      | succ j => simpa using ih i j (by omega)

/-- `List.set` at an in-bounds index followed by `getD` there yields the
written value. -/
theorem getD_set_self (l : List Int) (i : Nat) (v : Int) (h : i < l.length) :
    (l.set i v).getD i 0 = v := by
  induction l generalizing i with
  | nil => simp at h
  | cons a t ih =>
    cases i with
    | zero => rfl
    | succ i => simpa using ih i (by simpa using h)

/-- On the decoder's output range the re-sign-extension of
`_execute_i_type` is the identity. -/
theorem signExtendAgain_id (i : Int) (h0 : -32768 ≤ i) (h1 : i < 32768) :
    signExtendAgain i = i := by
  unfold signExtendAgain
  split <;> omega

/-- Storing a word below 2^32 and reading it back through `memWord` is the
identity (the big-endian to_bytes/from_bytes round trip). -/
theorem memWord_storeBytes (m : Nat → Nat) (a : Nat) (v : Nat) :
    memWord (storeBytes m a v) a = v := by
  unfold memWord storeBytes
  rw [if_pos rfl, if_neg (by omega), if_pos rfl, if_neg (by omega), if_neg (by omega),
    if_pos rfl, if_neg (by omega), if_neg (by omega), if_neg (by omega), if_pos rfl]
  omega

/-- `storeBytes` leaves bytes outside its 4-byte window unchanged. -/
theorem storeBytes_outside (m : Nat → Nat) (a v x : Nat)
    (h0 : x ≠ a) (h1 : x ≠ a + 1) (h2 : x ≠ a + 2) (h3 : x ≠ a + 3) :
    storeBytes m a v x = m x := by
  unfold storeBytes
  rw [if_neg h0, if_neg h1, if_neg h2, if_neg h3]

/-- A word store at one 4-aligned address does not change the word read at a
different 4-aligned address (the two byte windows are disjoint). -/
theorem memWord_storeBytes_disj (m : Nat → Nat) (a a' : Nat) (v : Nat)
    (ha : 4 ∣ a) (ha' : 4 ∣ a') (hne : a' ≠ a) :
    memWord (storeBytes m a v) a' = memWord m a' := by
  unfold memWord
  rw [storeBytes_outside m a v a' (by omega) (by omega) (by omega) (by omega),
    storeBytes_outside m a v (a' + 1) (by omega) (by omega) (by omega) (by omega),
    storeBytes_outside m a v (a' + 2) (by omega) (by omega) (by omega) (by omega),
    storeBytes_outside m a v (a' + 3) (by omega) (by omega) (by omega) (by omega)]

/-! ### C1 and C2: R-type arithmetic at concrete inputs -/

/-- A register file holding 0xFFFFFFFF in register 1 and 1 in register 2. -/
def regsFF01 : List Int := ((List.replicate 32 (0 : Int)).set 1 0xFFFFFFFF).set 2 1

/-- A CPU state over `regsFF01`. -/
def cpuFF01 : CPUState :=
  { pc := 0, registers := regsFF01, halted := false, branch_taken := false,
    branch_target := none }

/-- C1: executing ADD (funct 0x20) with rs = 0xFFFFFFFF and rt = 1 stores
2^32 = 4294967296 into rd, and executing SUB (funct 0x22) with rs = 0 and
rt = 1 stores -1: neither result is reduced modulo 2^32, so the destination
register does not always hold a value in [0, 2^32). -/
theorem c1_add_sub_not_masked :
    regGet (execute_r_type cpuFF01 1 2 3 0x20) 3 = 4294967296 ∧
    regGet (execute_r_type cpuFF01 0 2 3 0x22) 3 = -1 ∧
    ¬ (4294967296 : Int) < 4294967296 ∧ ¬ (0 : Int) ≤ -1 := by
  refine ⟨by decide, by decide, by decide, by decide⟩

/-- C2: executing SLT (funct 0x2A) with rs holding 0xFFFFFFFF and rt holding
1 writes 0 to rd — the comparison is on the raw stored values, so
0xFFFFFFFF (signed -1) does not compare less than 1. -/
theorem c2_slt_compares_raw_values :
    regGet (execute_r_type cpuFF01 1 2 3 0x2A) 3 = 0 ∧ (0 : Int) ≠ 1 := by
  refine ⟨by decide, by decide⟩

/-! ### C3: hit-rate reporting -/

/-- Extracts the post-state of a bus operation (`run`'s view: the fault
state is what the exception handler leaves behind). -/
def busAfter {α : Type} : BusRes α → BusState
  | .ok _ b => b
  | .fault _ b => b

/-- A fresh bus after one read of address 0 (a miss). -/
def busOneRead : BusState := busAfter (read_word freshBus 0)

/-- That bus after an immediate repeat read of address 0 (a hit). -/
def busTwoReads : BusState := busAfter (read_word busOneRead 0)

/-- C3 counterexample: after exactly one miss and one hit the bus cache's
`get_stats` reports `hit_rate = 50` (a percentage), which is not the
fraction `hits/(hits+misses) = 1/2` the claim asserts. -/
theorem c3_hit_rate_counterexample :
    busTwoReads.hits = 1 ∧ busTwoReads.misses = 1 ∧
    get_stats_hit_rate busTwoReads.hits busTwoReads.misses = 50 ∧
    get_stats_hit_rate busTwoReads.hits busTwoReads.misses ≠ 1 / 2 := by
  refine ⟨by decide, by decide, ?_, ?_⟩
  · show get_stats_hit_rate 1 1 = 50
    norm_num [get_stats_hit_rate]
  · show get_stats_hit_rate 1 1 ≠ 1 / 2
    norm_num [get_stats_hit_rate]

/-- C3 amended: starting from an empty cache, a read of an address is a miss
and an immediate repeat read is a hit; the bus cache's `get_stats` then
reports `hit_rate = hits/(hits+misses)*100 = 50` (a percentage, 0 when there
have been no accesses), while the unused `Cache.get_hit_rate` of cache.py
returns the fraction `hits/(hits+misses) = 1/2` (0 when no accesses). -/
theorem c3_hit_rate_amended :
    busOneRead.misses = 1 ∧ busOneRead.hits = 0 ∧
    busTwoReads.hits = 1 ∧ busTwoReads.misses = 1 ∧
    get_stats_hit_rate busTwoReads.hits busTwoReads.misses = 50 ∧
    get_stats_hit_rate 0 0 = 0 ∧
    get_hit_rate busTwoReads.hits busTwoReads.misses = 1 / 2 ∧
    get_hit_rate 0 0 = 0 := by
  refine ⟨by decide, by decide, by decide, by decide, ?_, ?_, ?_, ?_⟩
  · show get_stats_hit_rate 1 1 = 50
    norm_num [get_stats_hit_rate]
  · norm_num [get_stats_hit_rate]
  · show get_hit_rate 1 1 = 1 / 2
    norm_num [get_hit_rate]
  · norm_num [get_hit_rate]

/-! ### C4: write-miss policy -/

/-- A fresh bus after a word write to the non-resident address 0x100. -/
def busWriteMiss : BusState := busAfter (write_word freshBus 0x100 7)

/-- That bus after a subsequent read of address 0x100. -/
def busWriteMissRead : BusState := busAfter (read_word busWriteMiss 0x100)

/-- C4 counterexample: on the operative bus cache, a word write to the
non-resident address 0x100 leaves the miss counter at 0 (not incremented),
stores the value into the cache line (not left untouched/invalid), and the
immediately following read of that address is a hit, not a miss. -/
theorem c4_write_miss_counterexample :
    freshBus.cache 0x100 = none ∧
    busWriteMiss.misses = 0 ∧
    busWriteMiss.cache 0x100 = some 7 ∧
    busWriteMissRead.hits = 1 ∧ busWriteMissRead.misses = 0 := by
  refine ⟨by decide, by decide, by decide, by decide, by decide⟩

/-- C4 amended: for every bus state and every non-resident in-memory address,
a word write (of an in-range value) succeeds, updates the backing memory
word, allocates the written value into the cache (write-allocate), leaves
both hit and miss counters unchanged, and an immediately following read of
that address is a cache hit returning the written value. -/
theorem c4_write_allocates (b : BusState) (a : Nat) (v : Int)
    (_hnr : b.cache a = none) (hio : a < IO_BASE) (hbound : a + 4 ≤ MEMORY_SIZE)
    (hv0 : 0 ≤ v) (hv1 : v < 4294967296) :
    ∃ b1, write_word b a v = .ok () b1 ∧
      b1.misses = b.misses ∧ b1.hits = b.hits ∧
      b1.cache a = some v ∧
      memWord b1.memory a = v.toNat ∧
      read_word b1 a = .ok v { b1 with hits := b1.hits + 1 } := by
  use ({ b with
          memory := storeBytes b.memory a v.toNat,
          cache := fun x => if x = a then some v else b.cache x,
          writes := b.writes + 1 })
  refine ⟨?_, rfl, rfl, by simp, ?_, ?_⟩
  · unfold write_word
    rw [if_neg (by omega), if_neg (by omega)]
    simp only [cacheWrite]
    rw [if_pos ⟨hv0, hv1⟩]
  · exact memWord_storeBytes _ _ _
  · unfold read_word
    rw [if_neg (by omega), if_neg (by omega)]
    unfold cacheRead
    simp

/-- C4 amended, witness: the amended statement applied on a fresh bus at
address 0x100 with value 7. -/
theorem c4_write_allocates_witness :
    freshBus.cache 0x100 = none ∧ 0x100 < IO_BASE ∧ 0x100 + 4 ≤ MEMORY_SIZE ∧
    (0 : Int) ≤ 7 ∧ (7 : Int) < 4294967296 ∧
    ∃ b1, write_word freshBus 0x100 7 = .ok () b1 ∧
      b1.misses = freshBus.misses ∧ b1.hits = freshBus.hits ∧
      b1.cache 0x100 = some 7 ∧
      memWord b1.memory 0x100 = (7 : Int).toNat ∧
      read_word b1 0x100 = .ok 7 { b1 with hits := b1.hits + 1 } :=
  ⟨by decide, by decide, by decide, by decide, by decide,
    c4_write_allocates freshBus 0x100 7 (by decide) (by decide) (by decide)
      (by decide) (by decide)⟩

/-! ### C5: register 0 -/

/-- The machine a step result leaves behind (the fault state is what the
`except` handler in `CPU.run` observes). -/
def resMachine : StepRes → Machine
  | .ok m => m
  | .fault _ m => m

/-- The trailing `self.registers[0] = 0` of the execute helpers forces
register 0 to read 0. -/
theorem regGet_regSet_zero (c : CPUState) : regGet (regSet c 0 0) 0 = 0 :=
  getD_set_zero _

/-- C5: for every machine whose register 0 reads 0 (as every reachable state
does: reset zeroes it and it is re-forced after each instruction) and every
decoded instruction, register 0 still reads 0 in the state the execute
dispatch leaves behind, whether it completes or faults — covering all
opcodes and operand choices, including rd = 0 and rt = 0, whose writes are
discarded by the trailing re-zeroing. -/
theorem c5_register_zero (m : Machine) (d : Decoded) (h : regGet m.cpu 0 = 0) :
    regGet (resMachine (execute_decoded m d)).cpu 0 = 0 := by
  cases d with
  | rtype rs rt rd shamt funct =>
    exact regGet_regSet_zero _
  | itype opcode rs rt immediate =>
    simp only [execute_decoded]
    unfold execute_i_type
    dsimp only
    repeat' split
    all_goals first
      | exact regGet_regSet_zero _
      | exact h
  | jtype opcode target =>
    simp only [execute_decoded]
    unfold execute_j_type
    dsimp only
    repeat' split
    all_goals first
      | exact h
      | exact (getD_set_ne m.cpu.registers 31 0 _ 0 (by omega)).trans h
  | halt => exact h

/-- C5 witness: the invariant applied to a fresh machine executing an ADD
targeting rd = 0. -/
theorem c5_register_zero_witness :
    regGet freshMachine.cpu 0 = 0 ∧
    regGet (resMachine (execute_decoded freshMachine (.rtype 1 2 0 0 0x20))).cpu 0 = 0 :=
  ⟨by decide, c5_register_zero freshMachine (.rtype 1 2 0 0 0x20) (by decide)⟩

/-! ### C7: out-of-bounds LW -/

/-- C7: for every machine whose current fetch yields an LW instruction whose
computed address `(rs + sign_extend(imm)) mod 2^32` is at least MEMORY_SIZE,
the run-loop step raises the address fault before any register or further
bus mutation, the exception handler halts the CPU, and the register file —
including the destination rt — is unchanged by the faulting instruction. -/
theorem c7_lw_out_of_bounds (m : Machine) (instr : Int) (b1 : BusState)
    (rs rt : Nat) (imm : Int)
    (hfetch : read_word m.bus m.cpu.pc.toNat = .ok instr b1)
    (hdec : decode_instruction instr = .ok (.itype 0x23 rs rt imm))
    (h0 : -32768 ≤ imm) (h1 : imm < 32768)
    (haddr : (MEMORY_SIZE : Int) ≤ (regGet m.cpu rs + imm) % 4294967296) :
    step_inner m = .fault .loadOutOfBounds { m with bus := b1 } ∧
    (step m).cpu.halted = true ∧
    (step m).cpu.registers = m.cpu.registers := by
  have hstep : step_inner m = .fault .loadOutOfBounds { m with bus := b1 } := by
    unfold step_inner
    rw [hfetch]
    dsimp only
    rw [hdec]
    dsimp only [execute_decoded]
    unfold execute_i_type
    dsimp only
    rw [signExtendAgain_id imm h0 h1]
    rw [if_neg (by norm_num), if_pos (by norm_num),
      if_pos (show (35 : Nat) = 8 ∨ (35 : Nat) = 35 ∨ (35 : Nat) = 43 by norm_num),
      if_pos haddr]
  refine ⟨hstep, ?_, ?_⟩ <;> (unfold step; rw [hstep])

/-- A machine about to execute `LW $2, 0($1)` with register 1 holding
0x200000, which is past MEMORY_SIZE: the instruction word 0x8C220000 sits
at address 0. -/
def lwMachine : Machine :=
  { cpu := { resetCPU with registers := resetCPU.registers.set 1 0x200000 }
    bus := { freshBus with memory := storeBytes freshBus.memory 0 0x8C220000 } }

/-- The bus of `lwMachine` after the instruction fetch. -/
def lwBusAfter : BusState := busAfter (read_word lwMachine.bus 0)

/-- C7 witness: the theorem applied to `lwMachine`. -/
theorem c7_lw_out_of_bounds_witness :
    read_word lwMachine.bus lwMachine.cpu.pc.toNat = .ok 0x8C220000 lwBusAfter ∧
    decode_instruction 0x8C220000 = .ok (.itype 0x23 1 2 0) ∧
    (-32768 : Int) ≤ 0 ∧ (0 : Int) < 32768 ∧
    (MEMORY_SIZE : Int) ≤ (regGet lwMachine.cpu 1 + 0) % 4294967296 ∧
    (step_inner lwMachine = .fault .loadOutOfBounds { lwMachine with bus := lwBusAfter } ∧
     (step lwMachine).cpu.halted = true ∧
     (step lwMachine).cpu.registers = lwMachine.cpu.registers) :=
  ⟨rfl, rfl, by decide, by decide, by decide,
    c7_lw_out_of_bounds lwMachine 0x8C220000 lwBusAfter 1 2 0 rfl rfl
      (by decide) (by decide) (by decide)⟩

/-! ### C8: memory-mapped I/O write to IO_BASE + 8 -/

/-- C8: a word write to IO_BASE + 8 on a fresh bus is rejected — the address
is not in the registered `io_devices` map (only IO_BASE and IO_BASE + 4
are), so the bus raises the invalid-I/O-address error, stores nothing, and
the io-writes counter stays at 0. -/
theorem c8_io_completion_write_rejected :
    write_word freshBus (IO_BASE + 8) 1 = .fault .invalidIOAddress freshBus ∧
    freshBus.io_devices (IO_BASE + 8) = none ∧
    freshBus.io_devices IO_BASE = some 8 ∧
    freshBus.io_devices (IO_BASE + 4) = some 0 ∧
    (busAfter (write_word freshBus (IO_BASE + 8) 1)).io_writes = 0 :=
  ⟨rfl, rfl, rfl, rfl, rfl⟩

/-! ### C10: the run loop always ends halted -/

/-- C10 (part of the claim): the `except` clause converts any fault raised
inside the loop body into the halted state. -/
theorem step_halts_on_fault (m : Machine) (e : SimError) (m1 : Machine)
    (h : step_inner m = .fault e m1) : (step m).cpu.halted = true := by
  unfold step
  rw [h]

/-- C10: whenever `run` returns (the while loop exits within the given
fuel), the CPU is halted: every fault raised during fetch, decode, execute,
or PC update is caught by the loop's exception handler, which sets the
halted flag, and the HALT path sets it directly. -/
theorem c10_run_ends_halted (fuel : Nat) (m m1 : Machine)
    (h : runCPU fuel m = some m1) : m1.cpu.halted = true := by
  induction fuel generalizing m with
  | zero => simp [runCPU] at h
  | succ n ih =>
    unfold runCPU at h
    by_cases hh : m.cpu.halted
    · rw [if_pos hh] at h
      cases h
      exact hh
    · rw [if_neg hh] at h
      exact ih _ h

/-- A fresh machine whose memory holds a single HALT instruction
(0xFC000000) at address 0. -/
def haltMachine : Machine :=
  { cpu := resetCPU
    bus := { freshBus with memory := storeBytes freshBus.memory 0 0xFC000000 } }

/-- C10 witness: running the one-instruction HALT program returns within
two loop iterations, and the returned machine is halted. -/
theorem c10_run_ends_halted_witness :
    runCPU 2 haltMachine = some (step haltMachine) ∧
    (step haltMachine).cpu.halted = true :=
  ⟨rfl, c10_run_ends_halted 2 haltMachine (step haltMachine) rfl⟩

/-! ### C9: J and JAL -/

/-- C9: from any state with a nonnegative in-range PC and no pending branch
(as at any execute step of the run loop), an in-bounds J sets the PC seen by
the next fetch to exactly `(PC & 0xF0000000) | (target26 << 2)` — the `-4`
stored by the execute step cancels against the `+4` of `update_pc`, so no
intervening `+4` is observable — and JAL does the same after first setting
register 31 to PC + 4. -/
theorem c9_jump_targets (m : Machine) (t : Nat)
    (_hpc : 0 ≤ m.cpu.pc) (hbt : m.cpu.branch_taken = false)
    (hlen : 31 < m.cpu.registers.length)
    (htgt : (m.cpu.pc.toNat &&& 0xF0000000) ||| (t <<< 2) < MEMORY_SIZE) :
    (∃ m1 m2, execute_j_type m 0x02 t = .ok m1 ∧ update_pc m1 = .ok m2 ∧
       m2.cpu.pc = ((m.cpu.pc.toNat &&& 0xF0000000) ||| (t <<< 2) : Nat) ∧
       m2.cpu.registers = m.cpu.registers) ∧
    (∃ m1 m2, execute_j_type m 0x03 t = .ok m1 ∧ update_pc m1 = .ok m2 ∧
       m2.cpu.pc = ((m.cpu.pc.toNat &&& 0xF0000000) ||| (t <<< 2) : Nat) ∧
       regGet m2.cpu 31 = m.cpu.pc + 4) := by
  constructor
  · use ({ m with cpu := { m.cpu with
            pc := (((m.cpu.pc.toNat &&& 0xF0000000) ||| (t <<< 2) : Nat) : Int) - 4 } })
    use ({ m with cpu := { m.cpu with
            pc := ((((m.cpu.pc.toNat &&& 0xF0000000) ||| (t <<< 2) : Nat) : Int) - 4 + 4)
              % 4294967296 } })
    refine ⟨?_, ?_, ?_, rfl⟩
    · unfold execute_j_type
      dsimp only
      rw [if_pos rfl, if_neg (by omega)]
    · unfold update_pc
      dsimp only
      rw [hbt]
      simp only [Bool.false_eq_true, if_false]
      rw [if_neg (by omega)]
    · unfold MEMORY_SIZE at htgt
      dsimp only
      omega
  · use ({ m with cpu := { regSet m.cpu 31 (m.cpu.pc + 4) with
            pc := (((m.cpu.pc.toNat &&& 0xF0000000) ||| (t <<< 2) : Nat) : Int) - 4 } })
    use ({ m with cpu := { regSet m.cpu 31 (m.cpu.pc + 4) with
            pc := ((((m.cpu.pc.toNat &&& 0xF0000000) ||| (t <<< 2) : Nat) : Int) - 4 + 4)
              % 4294967296 } })
    refine ⟨?_, ?_, ?_, ?_⟩
    · unfold execute_j_type
      dsimp only
      rw [if_neg (by norm_num), if_pos rfl, if_neg (by omega)]
    · unfold update_pc
      dsimp only [regSet]
      rw [hbt]
      simp only [Bool.false_eq_true, if_false]
      rw [if_neg (by omega)]
    · unfold MEMORY_SIZE at htgt
      dsimp only
      omega
    · dsimp only [regGet, regSet]
      exact getD_set_self m.cpu.registers 31 (m.cpu.pc + 4) hlen

/-- C9 witness: the theorem applied to a fresh machine jumping to
target26 = 4 (byte address 16). -/
theorem c9_jump_targets_witness :
    0 ≤ freshMachine.cpu.pc ∧ freshMachine.cpu.branch_taken = false ∧
    31 < freshMachine.cpu.registers.length ∧
    (freshMachine.cpu.pc.toNat &&& 0xF0000000) ||| (4 <<< 2) < MEMORY_SIZE ∧
    ((∃ m1 m2, execute_j_type freshMachine 0x02 4 = .ok m1 ∧ update_pc m1 = .ok m2 ∧
        m2.cpu.pc = ((freshMachine.cpu.pc.toNat &&& 0xF0000000) ||| (4 <<< 2) : Nat) ∧
        m2.cpu.registers = freshMachine.cpu.registers) ∧
     (∃ m1 m2, execute_j_type freshMachine 0x03 4 = .ok m1 ∧ update_pc m1 = .ok m2 ∧
        m2.cpu.pc = ((freshMachine.cpu.pc.toNat &&& 0xF0000000) ||| (4 <<< 2) : Nat) ∧
        regGet m2.cpu 31 = freshMachine.cpu.pc + 4)) :=
  ⟨by decide, by decide, by decide, by decide,
    c9_jump_targets freshMachine 4 (by decide) (by decide) (by decide) (by decide)⟩

/-! ### C6: cache/memory coherence -/

/-- A memory-bus operation of the kinds the coherence claim ranges over. -/
inductive BusOp where
  | readW (a : Nat)
  | writeW (a : Nat) (v : Int)
  | loadProg (prog : List Nat) (base : Nat)

/-- Run one bus operation, keeping the state the `run` loop would observe
whether the operation succeeds or raises. -/
def applyOp (b : BusState) : BusOp → BusState
  | .readW a => busAfter (read_word b a)
  | .writeW a v => busAfter (write_word b a v)
  | .loadProg p base => busAfter (load_program b p base)

/-- Well-formed operations: word accesses are 4-aligned (as all CPU-issued
word addresses are in the intended use) and written values are in-range
32-bit words. -/
def BusOpWF : BusOp → Prop
  | .readW a => 4 ∣ a
  | .writeW a v => 4 ∣ a ∧ 0 ≤ v ∧ v < 4294967296
  | .loadProg _ _ => True

/-- Coherence: every resident cache entry sits at a 4-aligned address and
holds exactly the current backing-memory word at that address. -/
def coherent (b : BusState) : Prop :=
  (∀ a, b.cache a ≠ none → 4 ∣ a) ∧
  (∀ a v, b.cache a = some v → v = (memWord b.memory a : Int))

/-- A fresh bus is coherent: its cache is empty. -/
theorem coherent_freshBus : coherent freshBus :=
  ⟨fun _ ha => absurd rfl ha, fun _ _ hv => Option.noConfusion hv⟩

/-- `read_word` preserves coherence at aligned addresses: a hit changes only
counters, a miss caches exactly the word it just read from memory. -/
theorem coherent_read_word (b : BusState) (a : Nat) (ha : 4 ∣ a)
    (hb : coherent b) : coherent (busAfter (read_word b a)) := by
  unfold read_word
  by_cases h1 : IO_BASE ≤ a
  · rw [if_pos h1]
    cases hdev : b.io_devices a <;> dsimp only <;> exact hb
  · rw [if_neg h1]
    by_cases h2 : MEMORY_SIZE < a + 4
    · rw [if_pos h2]
      exact hb
    · rw [if_neg h2]
      unfold cacheRead
      cases hc : b.cache a with
      | some w =>
        dsimp only
        exact hb
      | none =>
        dsimp only [cacheWrite, busAfter]
        constructor
        · intro x hx
          by_cases hxa : x = a
          · exact hxa ▸ ha
          · exact hb.1 x (by simpa [hxa] using hx)
        · intro x v hv
          by_cases hxa : x = a
          · subst hxa
            simp only [eq_self_iff_true, if_true, Option.some.injEq] at hv
            exact hv.symm
          · exact hb.2 x v (by simpa [hxa] using hv)

/-- `write_word` preserves coherence for aligned addresses and in-range
values: the written line now caches the value just written through, and
entries at other aligned addresses read an untouched block of memory. -/
theorem coherent_write_word (b : BusState) (a : Nat) (v : Int) (ha : 4 ∣ a)
    (h0 : 0 ≤ v) (h1 : v < 4294967296) (hb : coherent b) :
    coherent (busAfter (write_word b a v)) := by
  unfold write_word
  by_cases hio : IO_BASE ≤ a
  · rw [if_pos hio]
    cases hdev : b.io_devices a <;> dsimp only <;> exact hb
  · rw [if_neg hio]
    by_cases hob : MEMORY_SIZE < a + 4
    · rw [if_pos hob]
      exact hb
    · rw [if_neg hob]
      dsimp only [cacheWrite]
      rw [if_pos ⟨h0, h1⟩]
      dsimp only [busAfter]
      constructor
      · intro x hx
        by_cases hxa : x = a
        · exact hxa ▸ ha
        · exact hb.1 x (by simpa [hxa] using hx)
      · intro x w hw
        by_cases hxa : x = a
        · subst hxa
          simp only [eq_self_iff_true, if_true, Option.some.injEq] at hw
          rw [memWord_storeBytes, Int.toNat_of_nonneg h0]
          exact hw.symm
        · have hxmem : b.cache x = some w := by simpa [hxa] using hw
          have hxal : 4 ∣ x := hb.1 x (by rw [hxmem]; exact fun hh => Option.noConfusion hh)
          rw [memWord_storeBytes_disj b.memory a x v.toNat ha hxal hxa]
          exact hb.2 x w hxmem

/-- `load_program` preserves coherence: on success it clears the whole
cache, and its failure path changes nothing. -/
theorem coherent_load_program (b : BusState) (p : List Nat) (base : Nat)
    (hb : coherent b) : coherent (busAfter (load_program b p base)) := by
  unfold load_program
  by_cases h : MEMORY_SIZE < base + p.length
  · rw [if_pos h]
    exact hb
  · rw [if_neg h]
    dsimp only [cacheClear, busAfter]
    exact ⟨fun _ hx => absurd rfl hx, fun _ w hw => Option.noConfusion hw⟩

/-- Every well-formed bus operation preserves coherence. -/
theorem coherent_applyOp (b : BusState) (op : BusOp) (hwf : BusOpWF op)
    (hb : coherent b) : coherent (applyOp b op) := by
  cases op with
  | readW a => exact coherent_read_word b a hwf hb
  | writeW a v => exact coherent_write_word b a v hwf.1 hwf.2.1 hwf.2.2 hb
  | loadProg p base => exact coherent_load_program b p base hb

/-- Folding well-formed operations keeps any coherent bus coherent. -/
theorem coherent_foldl (ops : List BusOp) (b : BusState) (hb : coherent b)
    (h : ∀ op ∈ ops, BusOpWF op) : coherent (ops.foldl applyOp b) := by
  induction ops generalizing b with
  | nil => exact hb
  | cons o rest ih =>
    exact ih (applyOp b o) (coherent_applyOp b o (h o (List.mem_cons_self o rest)) hb)
      (fun op hop => h op (List.mem_cons_of_mem o hop))

/-- C6 amended: after every sequence of well-formed bus operations — word
reads and word writes at 4-aligned addresses with in-range values, and
`load_program` (which invalidates the whole cache) — starting from a fresh
bus, every valid cache entry's data equals the current contents of backing
memory at that address. The original claim also ranged over `load_memory`,
which does not invalidate or update the cache and so can leave stale
entries (see the counterexample). -/
theorem c6_cache_coherence (ops : List BusOp)
    (h : ∀ op ∈ ops, BusOpWF op) : coherent (ops.foldl applyOp freshBus) :=
  coherent_foldl ops freshBus coherent_freshBus h

/-- C6 witness: coherence after a concrete read/write/load-program
sequence. -/
theorem c6_cache_coherence_witness :
    (∀ op ∈ ([.readW 0, .writeW 4 7, .loadProg [1, 2, 3] 0] : List BusOp), BusOpWF op) ∧
    coherent (([.readW 0, .writeW 4 7, .loadProg [1, 2, 3] 0] : List BusOp).foldl
      applyOp freshBus) := by
  have hwf : ∀ op ∈ ([.readW 0, .writeW 4 7, .loadProg [1, 2, 3] 0] : List BusOp),
      BusOpWF op := by
    intro op hop
    simp only [List.mem_cons, List.not_mem_nil, or_false] at hop
    rcases hop with rfl | rfl | rfl
    · show (4 : Nat) ∣ 0
      norm_num
    · refine ⟨by norm_num, by norm_num, by norm_num⟩
    · trivial
  exact ⟨hwf, c6_cache_coherence _ hwf⟩

/-- The bus reached by reading address 0 (which caches word 0) and then
initializing memory through `load_memory` with 42 at address 0. -/
def staleBus : BusState :=
  busAfter (load_memory (busAfter (read_word freshBus 0)) [(0, 42)])

/-- C6 counterexample: `load_memory` bulk-replaces memory without
invalidating the cache, so afterwards the cache still holds 0 for address 0
while backing memory holds 42 — a valid cache entry whose data differs from
the current memory contents at that address. -/
theorem c6_stale_after_load_memory :
    staleBus.cache 0 = some 0 ∧ memWord staleBus.memory 0 = 42 ∧
    (0 : Int) ≠ (42 : Int) := by
  refine ⟨by decide, by decide, by decide⟩
